import Mathlib

/-!
Verification of the PGN replayer and API orchestrator of the AI-chess-analyzer
backend (`backend/app/services/chess_service.py`, `backend/app/api/endpoints.py`,
`backend/app/services/openai_service.py`, `backend/app/models/chess_models.py`).

The chess rules engine (python-chess) is an external collaborator of the
repository; it is modelled abstractly as a `ChessEngine` structure whose fields
are exactly the operations the repository calls on it (`board.fen()`,
`board.san(move)`, `board.push(move)`, `board.piece_at(sq)`, `board.is_check()`,
`board.is_checkmate()`).  PGN parsing (`chess.pgn.read_game`) is likewise
external: a `PgnInput` carries the raw text together with the parse result
(`none` when `read_game` yields no game).  Everything downstream of those
external calls is translated statement-by-statement from the Python source.
-/

set_option maxHeartbeats 1000000
set_option linter.unusedVariables false

/-- A python-chess `Move` object as seen by the repository: the code only asks
for its UCI string, its destination square and its truthiness (a null move is
falsy, which triggers the `if not move: continue` branch of the loop). -/
structure MoveTok where
  uci : String
  to_square : Nat
  isNull : Bool
deriving DecidableEq, Repr

instance : Inhabited MoveTok := ⟨⟨"", 0, false⟩⟩

/-- The external chess-rules engine (python-chess) restricted to the operations
`chess_service.py` uses.  `san` may fail (python-chess raises on a move that is
illegal in the given position); all other operations are total, as in
python-chess. -/
structure ChessEngine where
  Board : Type
  fen : Board → String
  san : Board → MoveTok → Except String String
  push : Board → MoveTok → Board
  piece_at : Board → Nat → Option String
  is_check : Board → Bool
  is_checkmate : Board → Bool

/-- The pydantic `Move` model of `chess_models.py` (one white/black move pair). -/
structure Move where
  number : Nat
  white : Option String
  black : Option String
  position_after_white : Option String
  position_after_black : Option String
  white_uci : Option String
  black_uci : Option String
  full_move : String
  position_fen : String
  captured_piece_white : Option String
  captured_piece_black : Option String
  is_check_white : Bool
  is_check_black : Bool
  is_checkmate_white : Bool
  is_checkmate_black : Bool
deriving DecidableEq, Repr

/-- The metadata dictionary built at the end of `extract_moves_from_pgn`. -/
structure GameMetadata where
  opening_name : Option String
  result : Option String
  white_player : Option String
  black_player : Option String
  date : Option String
deriving DecidableEq, Repr

/-- A parsed game as returned by `chess.pgn.read_game`: the starting board
(`game.board()`, honouring a FEN header), the side to move in the starting
position (`True` = White, as in python-chess), the mainline moves in order, and
the header table.  `node.turn()` of the i-th mainline node is the side to move
after the i-th move, i.e. `startTurn` flipped `i+1` times. -/
structure PyGame (E : ChessEngine) where
  startBoard : E.Board
  startTurn : Bool
  mainline : List MoveTok
  headers : List (String × String)

/-- Input to `extract_moves_from_pgn`: the raw PGN text plus the result of the
external parse `chess.pgn.read_game(io.StringIO(pgn_content))` (`none` models a
falsy game object). -/
structure PgnInput (E : ChessEngine) where
  raw : String
  parsed : Option (PyGame E)

/-- A fastapi `HTTPException`, as raised by the backend. -/
structure HTTPError where
  status : Nat
  detail : String
deriving DecidableEq, Repr

/-- `str(e)` of a fastapi `HTTPException` (starlette renders it as
`"{status_code}: {detail}"` with a literal colon-space). -/
def httpStr (e : HTTPError) : String := toString e.status ++ ": " ++ e.detail

/-- Python `f"...{x}..."` interpolation of an `Optional[str]`: `None` prints as
the four-letter string. -/
def pyStr : Option String → String
  | none => "None"
  | some s => s

/-- Python truthiness of an `Optional[str]` value: `None` and the empty string
are falsy. -/
def pyTruthy : Option String → Bool
  | none => false
  | some s => s != ""

/-- The emptiness test `not pgn_content.strip()`: the stripped string is empty
exactly when every character of the input is whitespace. -/
def pyBlank (s : String) : Bool := s.data.all Char.isWhitespace

/-- `game.headers.get(key, None)`. -/
def headersGet (hs : List (String × String)) (k : String) : Option String :=
  (hs.find? (fun p => p.1 == k)).map (·.2)

/-- The metadata extraction at the end of `extract_moves_from_pgn`. -/
def mkMetadata (hs : List (String × String)) : GameMetadata :=
  { opening_name := headersGet hs "Opening"
    result := headersGet hs "Result"
    white_player := headersGet hs "White"
    black_player := headersGet hs "Black"
    date := headersGet hs "Date" }

/-- The fresh `current_move` dictionary built by `extract_moves_from_pgn`
(both at initialisation and after completing a pair): `number` and the
`f"{move_number}."` string come from the current move number, `position_fen`
from the board as it stands when the dictionary is created, every other field
`None`/`False`. -/
def initCurrent (n : Nat) (fen : String) : Move :=
  { number := n
    white := none
    black := none
    position_after_white := none
    position_after_black := none
    white_uci := none
    black_uci := none
    full_move := toString n ++ "."
    position_fen := fen
    captured_piece_white := none
    captured_piece_black := none
    is_check_white := false
    is_check_black := false
    is_checkmate_white := false
    is_checkmate_black := false }

/-- The mutable state of the replay loop of `extract_moves_from_pgn`:
the board, the accumulated `moves` list, the `move_number` counter, the
in-progress `current_move` record, and the side to move at the current node of
the game tree (this is what `node.turn()` is computed from: the i-th node's
`turn()` is the tree turn after the i-th move, and it flips on every node of
the mainline, null moves included). -/
structure LoopState (E : ChessEngine) where
  board : E.Board
  moves : List Move
  move_number : Nat
  current : Move
  treeTurn : Bool

/-- One iteration of `for node in game.mainline()`.  A null move is skipped by
`if not move: continue` (the tree turn still flips, the local board does not
advance).  Otherwise: `board.san(move)` (may raise, caught as a 400 error),
`move.uci()`, capture detection via `board.piece_at(move.to_square)`,
`board.push(move)`, check/checkmate flags, and the white/black branch selected
by `node.turn()` (the side to move after the move was played). -/
def stepNode (E : ChessEngine) (s : LoopState E) (m : MoveTok) :
    Except HTTPError (LoopState E) :=
  let nodeTurn := !s.treeTurn
  if m.isNull then
    .ok { s with treeTurn := nodeTurn }
  else
    match E.san s.board m with
    | .error e => .error ⟨400, "Error processing move: " ++ e⟩
    | .ok san_move =>
      let uci_move := m.uci
      let captured := E.piece_at s.board m.to_square
      let board' := E.push s.board m
      let is_check := E.is_check board'
      let is_checkmate := E.is_checkmate board'
      if nodeTurn then
        -- node.turn() is True: the move just played was Black's
        let cm : Move := { s.current with
          black := some san_move
          black_uci := some uci_move
          position_after_black := some (E.fen board')
          captured_piece_black := captured
          is_check_black := is_check
          is_checkmate_black := is_checkmate
          full_move := toString s.move_number ++ ". " ++ pyStr s.current.white
                        ++ " " ++ san_move
          position_fen := E.fen board' }
        .ok { board := board'
              moves := s.moves ++ [cm]
              move_number := s.move_number + 1
              current := initCurrent (s.move_number + 1) (E.fen board')
              treeTurn := nodeTurn }
      else
        -- node.turn() is False: the move just played was White's
        .ok { s with
              board := board'
              treeTurn := nodeTurn
              current := { s.current with
                white := some san_move
                white_uci := some uci_move
                position_after_white := some (E.fen board')
                captured_piece_white := captured
                is_check_white := is_check
                is_checkmate_white := is_checkmate
                full_move := toString s.move_number ++ ". " ++ san_move } }

/-- The whole `for node in game.mainline():` loop; the first raised
`HTTPException` aborts it. -/
def runLoop (E : ChessEngine) (s : LoopState E) : List MoveTok → Except HTTPError (LoopState E)
  | [] => .ok s
  | m :: rest =>
    match stepNode E s m with
    | .error e => .error e
    | .ok s' => runLoop E s' rest

/-- The body of `extract_moves_from_pgn` between the outer `try` and its
`except`: empty-input check, parse check, empty-mainline check (the inner
`try/except ValueError` around `list(game.mainline_moves())` cannot fire once
the game tree is materialised, so it is not a separate outcome), the replay
loop, the trailing white-only append, and the metadata extraction. -/
def extractInner (E : ChessEngine) (inp : PgnInput E) :
    Except HTTPError (List Move × GameMetadata) :=
  if pyBlank inp.raw then
    .error ⟨400, "Empty PGN content"⟩
  else
    match inp.parsed with
    | none => .error ⟨400, "Invalid PGN format - could not read game"⟩
    | some g =>
      if g.mainline = [] then
        .error ⟨400, "No valid moves found in PGN"⟩
      else
        match runLoop E ⟨g.startBoard, [], 1, initCurrent 1 (E.fen g.startBoard),
                         g.startTurn⟩ g.mainline with
        | .error e => .error e
        | .ok s =>
          let moves :=
            if pyTruthy s.current.white && !pyTruthy s.current.black then
              s.moves ++ [s.current]
            else s.moves
          .ok (moves, mkMetadata g.headers)

/-- `extract_moves_from_pgn` of `chess_service.py`.  The outer
`except Exception` catches every failure — including the `HTTPException`s the
body itself raises — and re-raises status 400 with detail
`f"Error extracting moves from PGN: {str(e)}"`. -/
def extract_moves_from_pgn (E : ChessEngine) (inp : PgnInput E) :
    Except HTTPError (List Move × GameMetadata) :=
  match extractInner E inp with
  | .error e => .error ⟨400, "Error extracting moves from PGN: " ++ httpStr e⟩
  | .ok r => .ok r

/-! ### API orchestrator models (`endpoints.py`, `openai_service.py`) -/

/-- The pydantic `Analysis` model (one key moment). -/
structure Analysis where
  move_number : Nat
  move : String
  analysis : String
  evaluation : Option String
deriving DecidableEq, Repr

/-- The pydantic `GameAnalysis` model. -/
structure GameAnalysis where
  moves : List Move
  summary : String
  key_moments : List Analysis
  opening_name : Option String
  result : Option String
  white_player : Option String
  black_player : Option String
  date : Option String
deriving DecidableEq, Repr

/-- Outcome of the external AI analysis call made by `analyze_game_with_gpt`:
either some (network/JSON-parse/missing-field) failure, or a validated
dictionary carrying a summary and key moments.  The function re-wraps every
failure into an `HTTPException` of status 500 before it leaves (the inner
500-status raises are themselves caught by its own `except Exception` and
re-wrapped with detail `f"Analysis failed: {str(e)}"`, still status 500). -/
inductive GptOutcome where
  | failure (msg : String)
  | success (summary : String) (key_moments : List Analysis)

/-- `analyze_game_with_gpt` of `openai_service.py`, as seen by its callers:
every failure path raises status 500, the success path returns the parsed
dictionary (here: the summary and key-moment fields the endpoint reads). -/
def analyze_game_with_gpt (moves : List Move) (o : GptOutcome) :
    Except HTTPError (String × List Analysis) :=
  match o with
  | .failure msg => .error ⟨500, "Analysis failed: " ++ msg⟩
  | .success s km => .ok (s, km)

/-- The `POST /analyze` handler `analyze_game` of `endpoints.py`.  Its single
`except Exception` catches everything raised in the body — including the
status-400 `HTTPException` raised by `extract_moves_from_pgn` for bad PGN —
and re-raises `HTTPException(status_code=500, detail=str(e))`. -/
def analyze_game (E : ChessEngine) (inp : PgnInput E) (o : GptOutcome) :
    Except HTTPError GameAnalysis :=
  match extract_moves_from_pgn E inp with
  | .error e => .error ⟨500, httpStr e⟩
  | .ok (moves, md) =>
    match analyze_game_with_gpt moves o with
    | .error e => .error ⟨500, httpStr e⟩
    | .ok (s, km) =>
      .ok { moves := moves
            summary := s
            key_moments := km
            opening_name := md.opening_name
            result := md.result
            white_player := md.white_player
            black_player := md.black_player
            date := md.date }

/-- The pydantic `HealthCheck` model. -/
structure HealthCheck where
  status : String
  openai_connection : Bool
  message : String
deriving DecidableEq, Repr

/-- Behaviour of the external probe request issued by
`check_openai_connection`: the call either returns a response — with
`bool(response and response.choices)` evaluating to the given Boolean — or
raises. -/
inductive ProbeOutcome where
  | responds (hasChoices : Bool)
  | raised (msg : String)
deriving DecidableEq, Repr

/-- The raw external call inside `check_openai_connection`, before its
`try/except`. -/
def probeCall : ProbeOutcome → Except String Bool
  | .responds b => .ok b
  | .raised m => .error m

/-- `check_openai_connection` of `openai_service.py`: returns
`bool(response and response.choices)`, and `False` on any exception.  It is
total — no exception escapes it. -/
def check_openai_connection (p : ProbeOutcome) : Bool :=
  match probeCall p with
  | .ok b => b
  | .error _ => false

/-- The `GET /health` handler `check_health` of `endpoints.py`.  Every path of
the handler returns a `HealthCheck` (the `except` branch, which would also
return one, is unreachable because `check_openai_connection` is total), so the
model's return type is `HealthCheck` rather than an `Except`. -/
def check_health (p : ProbeOutcome) : HealthCheck :=
  let conn := check_openai_connection p
  if conn then
    { status := "healthy"
      openai_connection := true
      message := "Service is healthy and OpenAI connection is working" }
  else
    { status := "unhealthy"
      openai_connection := false
      message := "OpenAI connection failed" }

/-- A JSON value, for the dictionaries flowing between
`structure_coaching_response` and the `/coach` handler. -/
inductive JVal where
  | jnull
  | jbool (b : Bool)
  | jnum (n : Int)
  | jstr (s : String)
  | jlist (xs : List JVal)
  | jobj (fs : List (String × JVal))

/-- `d[k]` / `k in d` on a Python dict modelled as an association list
(JSON-parsed dicts have unique keys). -/
def dictGet (d : List (String × JVal)) (k : String) : Option JVal :=
  (d.find? (fun p => p.1 == k)).map (·.2)

/-- `d[k] = v` on a Python dict: replaces the binding of `k` (appends when the
key is absent). -/
def setKey (d : List (String × JVal)) (k : String) (v : JVal) : List (String × JVal) :=
  match d with
  | [] => [(k, v)]
  | (k', v') :: rest =>
    if k' == k then (k', v) :: rest else (k', v') :: setKey rest k v

/-- Outcome of the second AI call inside `structure_coaching_response` plus the
subsequent `json.loads`: the call (or anything else before the inner `try`)
raised; the content was not valid JSON (`json.JSONDecodeError`); the content
parsed to a non-dict JSON value (every such value ends in the outer
`except Exception` fallback, via a `ValueError` or `TypeError`); or the content
parsed to a dictionary. -/
inductive StructureOutcome where
  | raised (msg : String)
  | badJson
  | parsedNonDict
  | parsed (d : List (String × JVal))

/-- The fallback dictionary of the inner `except json.JSONDecodeError` branch
of `structure_coaching_response`. -/
def structureFallbackInner (coaching_text : String) : List (String × JVal) :=
  [("text_response", .jstr coaching_text),
   ("suggestions", .jlist [.jstr "Please review the advice above"]),
   ("next_steps", .jlist [.jstr "Consider the main points mentioned"]),
   ("evaluation", .jstr "Unable to structure the response")]

/-- The fallback dictionary of the outer `except Exception` branch of
`structure_coaching_response`. -/
def structureFallbackOuter (coaching_text : String) : List (String × JVal) :=
  [("text_response", .jstr coaching_text),
   ("suggestions", .jlist [.jstr "Please review the advice provided"]),
   ("next_steps", .jlist [.jstr "Consider the key points mentioned"]),
   ("evaluation", .jstr "Error structuring the response")]

/-- The `if ... not isinstance(parsed_response[key], list)` massage of
`structure_coaching_response`: a present, non-list value is wrapped into a
one-element list; an absent key (or an already-list value) leaves the
dictionary unchanged. -/
def coerceListField (d : List (String × JVal)) (key : String) : List (String × JVal) :=
  match dictGet d key with
  | some (.jlist _) => d
  | some v => setKey d key (.jlist [v])
  | none => d

/-- `structure_coaching_response` of `openai_service.py`.  It never raises:
a JSON-decode failure yields the inner fallback dictionary; any other
exception — including the `ValueError` raised when `text_response` or
`suggestions` is missing, which the inner `except json.JSONDecodeError` does
not catch — yields the outer fallback dictionary.  On a parsed dictionary with
both required keys it coerces non-list `suggestions`/`next_steps` values into
one-element lists and returns the dictionary. -/
def structure_coaching_response (coaching_text : String) (o : StructureOutcome) :
    List (String × JVal) :=
  match o with
  | .raised _ => structureFallbackOuter coaching_text
  | .badJson => structureFallbackInner coaching_text
  | .parsedNonDict => structureFallbackOuter coaching_text
  | .parsed d =>
    if (dictGet d "text_response").isSome && (dictGet d "suggestions").isSome then
      coerceListField (coerceListField d "suggestions") "next_steps"
    else
      structureFallbackOuter coaching_text

/-- The pydantic `CoachingResponse` model of `chess_models.py`: `response` and
`suggestions` are required, `next_steps` and `evaluation` optional. -/
structure CoachingResponse where
  response : String
  suggestions : List String
  next_steps : Option (List String)
  evaluation : Option String
deriving DecidableEq, Repr

/-- Pydantic validation of a JSON value against `List[str]`. -/
def asStrList : JVal → Option (List String)
  | .jlist xs =>
    xs.foldr (fun v acc =>
      match v, acc with
      | .jstr s, some l => some (s :: l)
      | _, _ => none) (some [])
  | _ => none

/-- Pydantic validation of an optional `List[str]` field (absent or JSON null
becomes `None`). -/
def asOptStrList : Option JVal → Option (Option (List String))
  | none => some none
  | some .jnull => some none
  | some v => (asStrList v).map some

/-- Pydantic validation of an optional `str` field. -/
def asOptStr : Option JVal → Option (Option String)
  | none => some none
  | some .jnull => some none
  | some (.jstr s) => some (some s)
  | some _ => none

/-- `CoachingResponse(**d)`: pydantic constructs the model when `response` is a
string, `suggestions` a list of strings, and the optional fields absent, null
or of the right shape; extra keys (such as `text_response`) are ignored; a
missing or ill-typed required field raises a validation error (`none`). -/
def validateCoachingResponse (d : List (String × JVal)) : Option CoachingResponse :=
  match dictGet d "response" with
  | some (.jstr r) =>
    (match dictGet d "suggestions" with
     | some v => asStrList v
     | none => none).bind fun sugg =>
    (asOptStrList (dictGet d "next_steps")).bind fun ns =>
    (asOptStr (dictGet d "evaluation")).map fun ev =>
    { response := r, suggestions := sugg, next_steps := ns, evaluation := ev }
  | _ => none

/-- Outcome of the `/coach` request as far as the external world decides it:
the first AI call (`get_coaching_response`) raised an `HTTPException` with the
given detail (it always raises status 500), or it returned the coaching text
and the structuring step had the given outcome. -/
inductive CoachOutcome where
  | aiFailure (msg : String)
  | aiSuccess (content : String) (so : StructureOutcome)

/-- The hard-coded fallback object of the bare `except:` branch of the `/coach`
handler. -/
def coachFallback (coaching_content : String) : CoachingResponse :=
  { response := coaching_content
    suggestions := ["Focus on the key points mentioned above"]
    next_steps := some ["Review the advice and apply it in your next game"]
    evaluation := some "Please see the main response for evaluation" }

/-- The `POST /coach` handler `get_chess_coaching` of `endpoints.py`, from the
first AI call onwards (the prompt assembly before it cannot fail).  A failure
of the first AI call is caught by the outer `except Exception` and re-raised
as status 500 with `str(e)`.  Once it succeeds, the inner `try` builds
`CoachingResponse(**structured_content)`; its bare `except:` catches any
structuring or validation failure and returns the hard-coded fallback. -/
def get_chess_coaching (o : CoachOutcome) : Except HTTPError CoachingResponse :=
  match o with
  | .aiFailure msg => .error ⟨500, httpStr ⟨500, msg⟩⟩
  | .aiSuccess content so =>
    match validateCoachingResponse (structure_coaching_response content so) with
    | some r => .ok r
    | none => .ok (coachFallback content)

/-! ### Derived descriptions of the replay loop, used to state its properties -/

/-- `foldl` of `board.push` over a move list: the board after replaying the
moves in order. -/
def pushAll (E : ChessEngine) (b : E.Board) (ms : List MoveTok) : E.Board :=
  ms.foldl E.push b

/-- Whether the replay loop reaches the end of the move list without
`board.san` raising: null moves are skipped without advancing the board,
every other move must have a SAN in the current position and is then pushed. -/
def sanOk (E : ChessEngine) (b : E.Board) : List MoveTok → Bool
  | [] => true
  | m :: rest =>
    if m.isNull then sanOk E b rest
    else
      match E.san b m with
      | .error _ => false
      | .ok _ => sanOk E (E.push b m) rest

/-- The SAN string of a move in a position, defaulting to `""` when `san`
fails (only used under a `sanOk` hypothesis, where it never defaults). -/
def sanStr (E : ChessEngine) (b : E.Board) (m : MoveTok) : String :=
  match E.san b m with
  | .ok s => s
  | .error _ => ""

/-- The `Move` record the loop appends for a completed white/black pair that
starts at board `b` with move number `n`. -/
def pairRecord (E : ChessEngine) (b : E.Board) (n : Nat) (m1 m2 : MoveTok) : Move :=
  let b1 := E.push b m1
  let b2 := E.push b1 m2
  { number := n
    white := some (sanStr E b m1)
    black := some (sanStr E b1 m2)
    position_after_white := some (E.fen b1)
    position_after_black := some (E.fen b2)
    white_uci := some m1.uci
    black_uci := some m2.uci
    full_move := toString n ++ ". " ++ sanStr E b m1 ++ " " ++ sanStr E b1 m2
    position_fen := E.fen b2
    captured_piece_white := E.piece_at b m1.to_square
    captured_piece_black := E.piece_at b1 m2.to_square
    is_check_white := E.is_check b1
    is_check_black := E.is_check b2
    is_checkmate_white := E.is_checkmate b1
    is_checkmate_black := E.is_checkmate b2 }

/-- The records the loop appends while consuming the move list two at a time
from board `b` with first move number `n` (a trailing unpaired move
contributes nothing here; it is handled after the loop). -/
def expectedPairs (E : ChessEngine) (b : E.Board) (n : Nat) : List MoveTok → List Move
  | m1 :: m2 :: rest =>
    pairRecord E b n m1 m2 :: expectedPairs E (E.push (E.push b m1) m2) (n + 1) rest
  | _ => []

/-- The in-progress record left behind by a trailing white half-move played
from board `b` with move number `n`; `position_fen` keeps the value the record
was initialised with — the serialization of `b`, the position before the white
half-move — because the white branch of the loop never updates it. -/
def trailingRec (E : ChessEngine) (b : E.Board) (n : Nat) (m : MoveTok) : Move :=
  let b1 := E.push b m
  { initCurrent n (E.fen b) with
    white := some (sanStr E b m)
    white_uci := some m.uci
    position_after_white := some (E.fen b1)
    captured_piece_white := E.piece_at b m.to_square
    is_check_white := E.is_check b1
    is_checkmate_white := E.is_checkmate b1
    full_move := toString n ++ ". " ++ sanStr E b m }

/-! ### A small concrete engine, for evaluating the model on explicit inputs.
The board is a ply counter, `fen` prints it, `san` prefixes the move's UCI
string with `"S"` and fails exactly on the designated token `"bad"`, and the
square `9` is the only occupied square. -/

/-- A concrete `ChessEngine` instance used to run the model on explicit
inputs. -/
def toyE : ChessEngine :=
  { Board := Nat
    fen := fun b => toString b
    san := fun _ m => if m.uci == "bad" then .error "illegal san: bad" else .ok ("S" ++ m.uci)
    push := fun b _ => b + 1
    piece_at := fun _ sq => if sq == 9 then some "p" else none
    is_check := fun _ => false
    is_checkmate := fun _ => false }

/-- A toy non-null move token. -/
def tok (u : String) (sq : Nat) : MoveTok := ⟨u, sq, false⟩

/-! ### Loop lemmas -/

/-- Consuming one white/black pair from a fresh in-progress record: the loop
appends exactly `pairRecord` and starts over with the incremented move number
and a fresh record on the advanced board. -/
theorem runLoop_pair_step (E : ChessEngine) (b : E.Board) (acc : List Move)
    (n : Nat) (m1 m2 : MoveTok) (rest : List MoveTok) (s1 s2 : String)
    (hn1 : m1.isNull = false) (hn2 : m2.isNull = false)
    (hs1 : E.san b m1 = .ok s1) (hs2 : E.san (E.push b m1) m2 = .ok s2) :
    runLoop E ⟨b, acc, n, initCurrent n (E.fen b), true⟩ (m1 :: m2 :: rest) =
      runLoop E ⟨E.push (E.push b m1) m2, acc ++ [pairRecord E b n m1 m2], n + 1,
                 initCurrent (n + 1) (E.fen (E.push (E.push b m1) m2)), true⟩ rest := by
  simp [runLoop, stepNode, hn1, hn2, hs1, hs2, pairRecord, initCurrent, pyStr, sanStr]

/-- Consuming a single trailing white half-move from a fresh in-progress
record: nothing is appended, the in-progress record becomes `trailingRec`. -/
theorem runLoop_white_step (E : ChessEngine) (b : E.Board) (acc : List Move)
    (n : Nat) (m : MoveTok) (s1 : String)
    (hn : m.isNull = false) (hs : E.san b m = .ok s1) :
    runLoop E ⟨b, acc, n, initCurrent n (E.fen b), true⟩ [m] =
      .ok ⟨E.push b m, acc, n, trailingRec E b n m, false⟩ := by
  simp [runLoop, stepNode, hn, hs, trailingRec, initCurrent, sanStr]

/-- Extracting a successful `san` from a `sanOk` hypothesis on a non-null head
move, together with `sanOk` for the tail on the advanced board. -/
theorem sanOk_cons (E : ChessEngine) (b : E.Board) (m : MoveTok) (rest : List MoveTok)
    (hn : m.isNull = false) (h : sanOk E b (m :: rest) = true) :
    ∃ s1, E.san b m = .ok s1 ∧ sanOk E (E.push b m) rest = true := by
  simp only [sanOk, hn, if_neg Bool.false_ne_true] at h
  cases hs : E.san b m with
  | error e => rw [hs] at h; simp at h
  | ok s => rw [hs] at h; exact ⟨s, rfl, h⟩

/-- Running the loop from a fresh in-progress record over an even number of
non-null, SAN-valid moves appends exactly the `expectedPairs` records, advances
the move number by the number of pairs, and leaves a fresh record whose
`position_fen` is the final board's serialization. -/
theorem runLoop_even (E : ChessEngine) :
    ∀ (NN : Nat) (ms : List MoveTok) (b : E.Board) (acc : List Move) (n : Nat),
    ms.length = 2 * NN →
    (∀ m ∈ ms, m.isNull = false) →
    sanOk E b ms = true →
    runLoop E ⟨b, acc, n, initCurrent n (E.fen b), true⟩ ms =
      .ok ⟨pushAll E b ms, acc ++ expectedPairs E b n ms, n + NN,
           initCurrent (n + NN) (E.fen (pushAll E b ms)), true⟩ := by
  intro NN
  induction NN with
  | zero =>
    intro ms b acc n hlen _ _
    have : ms = [] := List.eq_nil_of_length_eq_zero (by omega)
    subst this
    simp [runLoop, pushAll, expectedPairs]
  | succ NN ih =>
    intro ms b acc n hlen hnn hsan
    match ms with
    | [] => simp at hlen
    | [m] => simp at hlen; omega
    | m1 :: m2 :: rest =>
      have hn1 : m1.isNull = false := hnn m1 (by simp)
      have hn2 : m2.isNull = false := hnn m2 (by simp)
      obtain ⟨s1, hs1, hsan2⟩ := sanOk_cons E b m1 (m2 :: rest) hn1 hsan
      obtain ⟨s2, hs2, hsan3⟩ := sanOk_cons E (E.push b m1) m2 rest hn2 hsan2
      rw [runLoop_pair_step E b acc n m1 m2 rest s1 s2 hn1 hn2 hs1 hs2]
      rw [ih rest (E.push (E.push b m1) m2) (acc ++ [pairRecord E b n m1 m2]) (n + 1)
            (by simp at hlen ⊢; omega) (fun m hm => hnn m (by simp [hm])) hsan3]
      simp only [pushAll, List.foldl_cons, expectedPairs, List.append_assoc,
        List.singleton_append]
      have harith : n + 1 + NN = n + (NN + 1) := by omega
      rw [harith]

/-- The loop over a concatenation runs the first part, then the second from
the resulting state. -/
theorem runLoop_append (E : ChessEngine) :
    ∀ (xs ys : List MoveTok) (s : LoopState E),
    runLoop E s (xs ++ ys) =
      match runLoop E s xs with
      | .error e => .error e
      | .ok s' => runLoop E s' ys := by
  intro xs
  induction xs with
  | nil => intro ys s; simp [runLoop]
  | cons m rest ih =>
    intro ys s
    simp only [List.cons_append, runLoop]
    cases stepNode E s m with
    | error e => simp
    | ok s' => simp [ih ys s']

/-- `sanOk` over a concatenation of non-null moves splits into `sanOk` on the
prefix and `sanOk` on the suffix from the advanced board. -/
theorem sanOk_append (E : ChessEngine) :
    ∀ (xs ys : List MoveTok) (b : E.Board),
    (∀ m ∈ xs, m.isNull = false) →
    sanOk E b (xs ++ ys) = true →
    sanOk E b xs = true ∧ sanOk E (pushAll E b xs) ys = true := by
  intro xs
  induction xs with
  | nil => intro ys b _ h; exact ⟨rfl, h⟩
  | cons m rest ih =>
    intro ys b hnn h
    have hn : m.isNull = false := hnn m (by simp)
    rw [List.cons_append] at h
    obtain ⟨s1, hs1, h2⟩ := sanOk_cons E b m (rest ++ ys) hn h
    obtain ⟨ha, hb⟩ := ih ys (E.push b m) (fun x hx => hnn x (by simp [hx])) h2
    refine ⟨?_, ?_⟩
    · simp only [sanOk, hn, if_neg Bool.false_ne_true, hs1]
      exact ha
    · simpa [pushAll] using hb

/-- Running the loop from a fresh record over an even prefix followed by one
trailing non-null white half-move: the pairs are appended, and the final state
holds the `trailingRec` in-progress record. -/
theorem runLoop_odd (E : ChessEngine) (NN : Nat) (ms' : List MoveTok) (mL : MoveTok)
    (b : E.Board) (acc : List Move) (n : Nat)
    (hlen : ms'.length = 2 * NN)
    (hnn : ∀ m ∈ ms' ++ [mL], m.isNull = false)
    (hsan : sanOk E b (ms' ++ [mL]) = true) :
    runLoop E ⟨b, acc, n, initCurrent n (E.fen b), true⟩ (ms' ++ [mL]) =
      .ok ⟨E.push (pushAll E b ms') mL, acc ++ expectedPairs E b n ms', n + NN,
           trailingRec E (pushAll E b ms') (n + NN) mL, false⟩ := by
  have hnn' : ∀ m ∈ ms', m.isNull = false := fun m hm => hnn m (by simp [hm])
  obtain ⟨hsan1, hsan2⟩ := sanOk_append E ms' [mL] b hnn' hsan
  have hnL : mL.isNull = false := hnn mL (by simp)
  obtain ⟨sL, hsL, _⟩ := sanOk_cons E (pushAll E b ms') mL [] hnL hsan2
  rw [runLoop_append E ms' [mL] _]
  rw [runLoop_even E NN ms' b acc n hlen hnn' hsan1]
  simp only []
  exact runLoop_white_step E (pushAll E b ms') (acc ++ expectedPairs E b n ms')
    (n + NN) mL sL hnL hsL

/-- `extract_moves_from_pgn` on a non-blank input that parses to a game with
White to move and an even, positive number of non-null, SAN-valid mainline
moves: it succeeds with exactly the `expectedPairs` records (the in-progress
record left by the loop has no white half-move, so nothing is appended after
the loop) and the header metadata. -/
theorem extract_even (E : ChessEngine) (inp : PgnInput E) (g : PyGame E) (N : Nat)
    (hraw : pyBlank inp.raw = false)
    (hp : inp.parsed = some g)
    (ht : g.startTurn = true)
    (hN : 0 < N)
    (hlen : g.mainline.length = 2 * N)
    (hnn : ∀ m ∈ g.mainline, m.isNull = false)
    (hsan : sanOk E g.startBoard g.mainline = true) :
    extract_moves_from_pgn E inp =
      .ok (expectedPairs E g.startBoard 1 g.mainline, mkMetadata g.headers) := by
  have hne : ¬ g.mainline = [] := by
    intro h
    rw [h] at hlen
    simp at hlen
    omega
  unfold extract_moves_from_pgn extractInner
  rw [if_neg (by rw [hraw]; exact Bool.false_ne_true), hp]
  simp only [if_neg hne, ht]
  rw [runLoop_even E N g.mainline g.startBoard [] 1 hlen hnn hsan]
  simp [pyTruthy, initCurrent]

/-- `extract_moves_from_pgn` on a non-blank input that parses to a game with
White to move and an odd number of non-null, SAN-valid mainline moves (the SAN
of the trailing move being non-empty, as every SAN produced by python-chess
is): it succeeds with the `expectedPairs` records followed by the trailing
white-only record, appended after the loop. -/
theorem extract_odd (E : ChessEngine) (inp : PgnInput E) (g : PyGame E) (N : Nat)
    (ms' : List MoveTok) (mL : MoveTok)
    (hraw : pyBlank inp.raw = false)
    (hp : inp.parsed = some g)
    (ht : g.startTurn = true)
    (hsplit : g.mainline = ms' ++ [mL])
    (hlen : ms'.length = 2 * N)
    (hnn : ∀ m ∈ g.mainline, m.isNull = false)
    (hsan : sanOk E g.startBoard g.mainline = true)
    (hsanne : ∀ s, E.san (pushAll E g.startBoard ms') mL = .ok s → s ≠ "") :
    extract_moves_from_pgn E inp =
      .ok (expectedPairs E g.startBoard 1 ms'
             ++ [trailingRec E (pushAll E g.startBoard ms') (1 + N) mL],
           mkMetadata g.headers) := by
  have hne : ¬ g.mainline = [] := by
    rw [hsplit]
    simp
  rw [hsplit] at hnn hsan
  have hnn' : ∀ m ∈ ms', m.isNull = false := fun m hm => hnn m (by simp [hm])
  obtain ⟨hsan1, hsan2⟩ := sanOk_append E ms' [mL] g.startBoard hnn' hsan
  have hnL : mL.isNull = false := hnn mL (by simp)
  obtain ⟨sL, hsL, _⟩ := sanOk_cons E (pushAll E g.startBoard ms') mL [] hnL hsan2
  unfold extract_moves_from_pgn extractInner
  rw [if_neg (by rw [hraw]; exact Bool.false_ne_true), hp]
  simp only [if_neg hne, ht, hsplit]
  rw [runLoop_odd E N ms' mL g.startBoard [] 1 hlen hnn hsan]
  have hwhite : (trailingRec E (pushAll E g.startBoard ms') (1 + N) mL).white
      = some sL := by
    simp [trailingRec, sanStr, hsL]
  have hblack : (trailingRec E (pushAll E g.startBoard ms') (1 + N) mL).black
      = none := by
    simp [trailingRec, initCurrent]
  simp [hwhite, hblack, pyTruthy, hsanne sL hsL]

/-- The loop produces one record per move pair. -/
theorem expectedPairs_length (E : ChessEngine) :
    ∀ (NN : Nat) (ms : List MoveTok) (b : E.Board) (n : Nat),
    ms.length = 2 * NN → (expectedPairs E b n ms).length = NN := by
  intro NN
  induction NN with
  | zero =>
    intro ms b n hlen
    have : ms = [] := List.eq_nil_of_length_eq_zero (by omega)
    subst this
    simp [expectedPairs]
  | succ NN ih =>
    intro ms b n hlen
    match ms with
    | [] => simp at hlen
    | [m] => simp at hlen; omega
    | m1 :: m2 :: rest =>
      simp only [expectedPairs, List.length_cons]
      rw [ih rest (E.push (E.push b m1) m2) (n + 1) (by simp at hlen ⊢; omega)]

/-- The `number` fields of the loop's records count up from the first move
number. -/
theorem expectedPairs_numbers (E : ChessEngine) :
    ∀ (NN : Nat) (ms : List MoveTok) (b : E.Board) (n : Nat),
    ms.length = 2 * NN →
    (expectedPairs E b n ms).map Move.number = List.range' n NN := by
  intro NN
  induction NN with
  | zero =>
    intro ms b n hlen
    have : ms = [] := List.eq_nil_of_length_eq_zero (by omega)
    subst this
    simp [expectedPairs]
  | succ NN ih =>
    intro ms b n hlen
    match ms with
    | [] => simp at hlen
    | [m] => simp at hlen; omega
    | m1 :: m2 :: rest =>
      simp only [expectedPairs, List.map_cons, List.range'_succ]
      rw [ih rest (E.push (E.push b m1) m2) (n + 1) (by simp at hlen ⊢; omega)]
      simp [pairRecord]

/-- Boards of the toy engine are plies counted as naturals. -/
def toyBoard (n : Nat) : toyE.Board := n

/-- The toy engine's SAN strings are never empty (as python-chess SANs never
are). -/
theorem toyE_san_ne (b : toyE.Board) (m : MoveTok) (s : String)
    (h : toyE.san b m = .ok s) : s ≠ "" := by
  unfold toyE at h
  simp only [] at h
  split at h
  · cases h
  · cases h
    intro he
    have := congrArg String.data he
    simp [String.data_append] at this

/-! ### Claim C1 -/

/-- C1: for every PGN that parses to a game with `N` full white/black move
pairs (White to move first, no trailing white-only half-move, no null moves,
every half-move SAN-valid, `N` positive — a PGN with zero moves is rejected),
`extract_moves_from_pgn` returns exactly `N` `Move` records whose `number`
fields are `1, 2, ..., N` in order. -/
theorem spec_C1_pair_count (E : ChessEngine) (inp : PgnInput E) (g : PyGame E) (N : Nat)
    (hraw : pyBlank inp.raw = false)
    (hp : inp.parsed = some g)
    (ht : g.startTurn = true)
    (hN : 0 < N)
    (hlen : g.mainline.length = 2 * N)
    (hnn : ∀ m ∈ g.mainline, m.isNull = false)
    (hsan : sanOk E g.startBoard g.mainline = true) :
    ∃ mvs md, extract_moves_from_pgn E inp = .ok (mvs, md) ∧
      mvs.length = N ∧ mvs.map Move.number = List.range' 1 N := by
  refine ⟨_, _, extract_even E inp g N hraw hp ht hN hlen hnn hsan, ?_, ?_⟩
  · exact expectedPairs_length E N g.mainline g.startBoard 1 hlen
  · exact expectedPairs_numbers E N g.mainline g.startBoard 1 hlen

/-- A concrete two-half-move game for exercising `spec_C1_pair_count`. -/
def c1Game : PyGame toyE :=
  ⟨toyBoard 0, true, [tok "e2e4" 3, tok "e7e5" 4], [("White", "A")]⟩

/-- A concrete input wrapping `c1Game`. -/
def c1Input : PgnInput toyE := ⟨"1. e4 e5", some c1Game⟩

/-- Witness for `spec_C1_pair_count`: its hypotheses hold of the concrete
one-pair game, and the conclusion follows by the theorem. -/
theorem spec_C1_pair_count_witness :
    (pyBlank c1Input.raw = false ∧ c1Input.parsed = some c1Game ∧
      c1Game.startTurn = true ∧ 0 < 1 ∧ c1Game.mainline.length = 2 * 1 ∧
      (∀ m ∈ c1Game.mainline, m.isNull = false) ∧
      sanOk toyE c1Game.startBoard c1Game.mainline = true) ∧
    (∃ mvs md, extract_moves_from_pgn toyE c1Input = .ok (mvs, md) ∧
      mvs.length = 1 ∧ mvs.map Move.number = List.range' 1 1) :=
  ⟨⟨by decide, rfl, rfl, by decide, by decide, by decide, by decide⟩,
   spec_C1_pair_count toyE c1Input c1Game 1 (by decide) rfl rfl (by decide)
     (by decide) (by decide) (by decide)⟩

/-! ### Claim C5 -/

/-- C5: for every PGN whose game (White to move first, non-null SAN-valid
moves) ends after a White half-move — an odd number of half-moves — the last
`Move` record returned by `extract_moves_from_pgn` has a non-null white
half-move and a null black half-move, and the output is exactly the loop's
pair records with that record appended after the loop. -/
theorem spec_C5_trailing_white (E : ChessEngine) (inp : PgnInput E) (g : PyGame E) (N : Nat)
    (hraw : pyBlank inp.raw = false)
    (hp : inp.parsed = some g)
    (ht : g.startTurn = true)
    (hlen : g.mainline.length = 2 * N + 1)
    (hnn : ∀ m ∈ g.mainline, m.isNull = false)
    (hsan : sanOk E g.startBoard g.mainline = true)
    (hsanne : ∀ (b : E.Board) (m : MoveTok) (s : String), E.san b m = .ok s → s ≠ "") :
    ∃ mvs md r, extract_moves_from_pgn E inp = .ok (mvs, md) ∧
      mvs = expectedPairs E g.startBoard 1 g.mainline.dropLast ++ [r] ∧
      mvs.length = N + 1 ∧ r.white.isSome = true ∧ r.black = none := by
  have hne : g.mainline ≠ [] := by
    intro h
    rw [h] at hlen
    simp at hlen
  have hsplit : g.mainline = g.mainline.dropLast ++ [g.mainline.getLast hne] :=
    (List.dropLast_append_getLast hne).symm
  have hlen' : g.mainline.dropLast.length = 2 * N := by
    rw [List.length_dropLast, hlen]
    omega
  have hext := extract_odd E inp g N g.mainline.dropLast (g.mainline.getLast hne)
    hraw hp ht hsplit hlen' hnn hsan
    (fun s hs => hsanne _ _ s hs)
  refine ⟨_, _, trailingRec E (pushAll E g.startBoard g.mainline.dropLast) (1 + N)
      (g.mainline.getLast hne), hext, rfl, ?_, ?_, ?_⟩
  · rw [List.length_append,
      expectedPairs_length E N g.mainline.dropLast g.startBoard 1 hlen']
    simp
  · obtain ⟨hsan1, hsan2⟩ := sanOk_append E g.mainline.dropLast
      [g.mainline.getLast hne] g.startBoard
      (fun m hm => hnn m (List.dropLast_subset _ hm))
      (hsplit ▸ hsan)
    obtain ⟨sL, hsL, _⟩ := sanOk_cons E _ _ []
      (hnn _ (List.getLast_mem hne)) hsan2
    simp [trailingRec, sanStr, hsL]
  · simp [trailingRec, initCurrent]

/-- A concrete three-half-move game (ending on White's move) for exercising
`spec_C5_trailing_white`. -/
def c5Game : PyGame toyE :=
  ⟨toyBoard 0, true, [tok "e2e4" 3, tok "e7e5" 4, tok "g1f3" 5], []⟩

/-- A concrete input wrapping `c5Game`. -/
def c5Input : PgnInput toyE := ⟨"1. e4 e5 2. Nf3", some c5Game⟩

/-- Witness for `spec_C5_trailing_white` on the concrete three-half-move
game. -/
theorem spec_C5_trailing_white_witness :
    (pyBlank c5Input.raw = false ∧ c5Input.parsed = some c5Game ∧
      c5Game.startTurn = true ∧ c5Game.mainline.length = 2 * 1 + 1 ∧
      (∀ m ∈ c5Game.mainline, m.isNull = false) ∧
      sanOk toyE c5Game.startBoard c5Game.mainline = true) ∧
    (∃ mvs md r, extract_moves_from_pgn toyE c5Input = .ok (mvs, md) ∧
      mvs = expectedPairs toyE c5Game.startBoard 1 c5Game.mainline.dropLast ++ [r] ∧
      mvs.length = 1 + 1 ∧ r.white.isSome = true ∧ r.black = none) :=
  ⟨⟨by decide, rfl, rfl, by decide, by decide, by decide⟩,
   spec_C5_trailing_white toyE c5Input c5Game 1 (by decide) rfl rfl (by decide)
     (by decide) (by decide) toyE_san_ne⟩

/-! ### Claim C2: invariants of the loop on arbitrary states -/

/-- A null move is skipped: only the tree turn flips. -/
theorem stepNode_null (E : ChessEngine) (s : LoopState E) (m : MoveTok)
    (hn : m.isNull = true) :
    stepNode E s m = .ok { s with treeTurn := !s.treeTurn } := by
  simp [stepNode, hn]

/-- A failing `board.san` aborts the loop with a 400 error. -/
theorem stepNode_err (E : ChessEngine) (s : LoopState E) (m : MoveTok) (e : String)
    (hn : m.isNull = false) (hs : E.san s.board m = .error e) :
    stepNode E s m = .error ⟨400, "Error processing move: " ++ e⟩ := by
  simp [stepNode, hn, hs]

/-- The white branch from an arbitrary state (tree turn White before the
move). -/
theorem stepNode_white_any (E : ChessEngine) (s : LoopState E) (m : MoveTok) (s1 : String)
    (htt : s.treeTurn = true) (hn : m.isNull = false)
    (hs : E.san s.board m = .ok s1) :
    stepNode E s m = .ok ⟨E.push s.board m, s.moves, s.move_number,
      { s.current with
        white := some s1,
        white_uci := some m.uci,
        position_after_white := some (E.fen (E.push s.board m)),
        captured_piece_white := E.piece_at s.board m.to_square,
        is_check_white := E.is_check (E.push s.board m),
        is_checkmate_white := E.is_checkmate (E.push s.board m),
        full_move := toString s.move_number ++ ". " ++ s1 },
      false⟩ := by
  simp [stepNode, hn, hs, htt]

/-- The black branch from an arbitrary state (tree turn Black before the
move). -/
theorem stepNode_black_any (E : ChessEngine) (s : LoopState E) (m : MoveTok) (s2 : String)
    (htt : s.treeTurn = false) (hn : m.isNull = false)
    (hs : E.san s.board m = .ok s2) :
    stepNode E s m = .ok ⟨E.push s.board m,
      s.moves ++ [{ s.current with
        black := some s2,
        black_uci := some m.uci,
        position_after_black := some (E.fen (E.push s.board m)),
        captured_piece_black := E.piece_at s.board m.to_square,
        is_check_black := E.is_check (E.push s.board m),
        is_checkmate_black := E.is_checkmate (E.push s.board m),
        full_move := toString s.move_number ++ ". " ++ pyStr s.current.white ++ " " ++ s2,
        position_fen := E.fen (E.push s.board m) }],
      s.move_number + 1,
      initCurrent (s.move_number + 1) (E.fen (E.push s.board m)),
      true⟩ := by
  simp [stepNode, hn, hs, htt]

/-- Loop invariant for C2: every appended record with a black half-move has
`position_after_black = some position_fen` (the black branch writes the same
`board.fen()` into both), and the in-progress record never has a black
half-move.  Holds for every run — any start turn, null moves included. -/
theorem runLoop_inv_fen (E : ChessEngine) :
    ∀ (ms : List MoveTok) (s s' : LoopState E),
    runLoop E s ms = .ok s' →
    (∀ rec ∈ s.moves, rec.black.isSome = true →
       rec.position_after_black = some rec.position_fen) →
    s.current.black = none →
    (∀ rec ∈ s'.moves, rec.black.isSome = true →
       rec.position_after_black = some rec.position_fen) ∧ s'.current.black = none := by
  intro ms
  induction ms with
  | nil =>
    intro s s' h hm hc
    simp only [runLoop, Except.ok.injEq] at h
    subst h
    exact ⟨hm, hc⟩
  | cons m rest ih =>
    intro s s' h hm hc
    simp only [runLoop] at h
    cases hnl : m.isNull with
    | true =>
      rw [stepNode_null E s m hnl] at h
      simp only [] at h
      exact ih _ s' h hm hc
    | false =>
      cases hsn : E.san s.board m with
      | error e =>
        rw [stepNode_err E s m e hnl hsn] at h
        simp at h
      | ok sn =>
        cases htt : s.treeTurn with
        | true =>
          rw [stepNode_white_any E s m sn htt hnl hsn] at h
          simp only [] at h
          exact ih _ s' h hm hc
        | false =>
          rw [stepNode_black_any E s m sn htt hnl hsn] at h
          simp only [] at h
          refine ih _ s' h ?_ rfl
          intro rec hrec hb
          rcases List.mem_append.mp hrec with hin | hin
          · exact hm rec hin hb
          · have heq := List.mem_singleton.mp hin
            subst heq
            rfl

/-- On any successful extraction, every record with a black half-move has
`position_after_black = some position_fen` (the trailing record, when
appended, has no black half-move). -/
theorem extract_ok_pairfen (E : ChessEngine) (inp : PgnInput E)
    (mvs : List Move) (md : GameMetadata)
    (h : extract_moves_from_pgn E inp = .ok (mvs, md)) :
    ∀ rec ∈ mvs, rec.black.isSome = true →
      rec.position_after_black = some rec.position_fen := by
  unfold extract_moves_from_pgn at h
  cases hI : extractInner E inp with
  | error e => rw [hI] at h; simp at h
  | ok r =>
    rw [hI] at h
    simp only [Except.ok.injEq] at h
    subst h
    unfold extractInner at hI
    by_cases hb : pyBlank inp.raw = true
    · simp [hb] at hI
    · rw [if_neg hb] at hI
      cases hp : inp.parsed with
      | none => rw [hp] at hI; simp at hI
      | some g =>
        rw [hp] at hI
        simp only [] at hI
        by_cases hq : g.mainline = []
        · simp [hq] at hI
        · rw [if_neg hq] at hI
          cases hr : runLoop E ⟨g.startBoard, [], 1,
              initCurrent 1 (E.fen g.startBoard), g.startTurn⟩ g.mainline with
          | error e => rw [hr] at hI; simp at hI
          | ok s =>
            rw [hr] at hI
            simp only [Except.ok.injEq, Prod.mk.injEq] at hI
            obtain ⟨hmvs, _⟩ := hI
            obtain ⟨hminv, hcinv⟩ := runLoop_inv_fen E g.mainline _ s hr
              (by intro rec hrec _; simp at hrec) rfl
            subst hmvs
            by_cases hcond : (pyTruthy s.current.white && !pyTruthy s.current.black) = true
            · rw [if_pos hcond]
              intro rec hrec hbl
              rcases List.mem_append.mp hrec with hin | hin
              · exact hminv rec hin hbl
              · have heq := List.mem_singleton.mp hin
                subst heq
                rw [hcinv] at hbl
                simp at hbl
            · rw [if_neg hcond]
              exact hminv

/-- C2 (amended): for every completed pair, `position_fen` equals the board's
serialization immediately after the black half-move (it always coincides with
`position_after_black`); but for a white-only trailing record, `position_fen`
equals the board's serialization from when the record was started — the
position BEFORE the white half-move — while the serialization after the white
half-move is held in `position_after_white` only (the white branch of the loop
never updates `position_fen`). -/
theorem spec_C2_position_fen (E : ChessEngine) (inp : PgnInput E) :
    (∀ mvs md, extract_moves_from_pgn E inp = .ok (mvs, md) →
      ∀ rec ∈ mvs, rec.black.isSome = true →
        rec.position_after_black = some rec.position_fen) ∧
    (∀ (g : PyGame E) (N : Nat), pyBlank inp.raw = false → inp.parsed = some g →
      g.startTurn = true → g.mainline.length = 2 * N + 1 →
      (∀ m ∈ g.mainline, m.isNull = false) →
      sanOk E g.startBoard g.mainline = true →
      (∀ (b : E.Board) (m : MoveTok) (s : String), E.san b m = .ok s → s ≠ "") →
      ∃ mvs md r, extract_moves_from_pgn E inp = .ok (mvs, md) ∧
        mvs.getLast? = some r ∧ r.white.isSome = true ∧ r.black = none ∧
        r.position_fen = E.fen (pushAll E g.startBoard g.mainline.dropLast) ∧
        r.position_after_white = some (E.fen (pushAll E g.startBoard g.mainline))) := by
  constructor
  · exact fun mvs md h => extract_ok_pairfen E inp mvs md h
  · intro g N hraw hp ht hlen hnn hsan hsanne
    have hne : g.mainline ≠ [] := by
      intro h
      rw [h] at hlen
      simp at hlen
    have hsplit : g.mainline = g.mainline.dropLast ++ [g.mainline.getLast hne] :=
      (List.dropLast_append_getLast hne).symm
    have hlen' : g.mainline.dropLast.length = 2 * N := by
      rw [List.length_dropLast, hlen]
      omega
    have hext := extract_odd E inp g N g.mainline.dropLast (g.mainline.getLast hne)
      hraw hp ht hsplit hlen' hnn hsan (fun s hs => hsanne _ _ s hs)
    obtain ⟨hsan1, hsan2⟩ := sanOk_append E g.mainline.dropLast
      [g.mainline.getLast hne] g.startBoard
      (fun m hm => hnn m (List.dropLast_subset _ hm)) (hsplit ▸ hsan)
    obtain ⟨sL, hsL, _⟩ := sanOk_cons E _ _ []
      (hnn _ (List.getLast_mem hne)) hsan2
    refine ⟨_, _, trailingRec E (pushAll E g.startBoard g.mainline.dropLast) (1 + N)
        (g.mainline.getLast hne), hext, List.getLast?_concat _, ?_, ?_, ?_, ?_⟩
    · simp [trailingRec, sanStr, hsL]
    · simp [trailingRec, initCurrent]
    · simp [trailingRec, initCurrent]
    · have hpush : pushAll E g.startBoard g.mainline
          = E.push (pushAll E g.startBoard g.mainline.dropLast) (g.mainline.getLast hne) := by
        conv_lhs => rw [hsplit]
        simp [pushAll, List.foldl_append]
      rw [hpush]
      simp [trailingRec]

/-- A concrete one-half-move game (a single white move) on which the original
form of C2 fails. -/
def c2Game : PyGame toyE := ⟨toyBoard 0, true, [tok "d2d4" 5], []⟩

/-- A concrete input wrapping `c2Game`. -/
def c2Input : PgnInput toyE := ⟨"1. d4", some c2Game⟩

/-- The single record `extract_moves_from_pgn` returns for `c2Input`. -/
def c2CexRec : Move :=
  { number := 1, white := some "Sd2d4", black := none,
    position_after_white := some "1", position_after_black := none,
    white_uci := some "d2d4", black_uci := none,
    full_move := "1. Sd2d4", position_fen := "0",
    captured_piece_white := none, captured_piece_black := none,
    is_check_white := false, is_check_black := false,
    is_checkmate_white := false, is_checkmate_black := false }

/-- Counterexample to C2 as stated: on a game consisting of the single white
half-move `d2d4` the trailing white-only record has
`position_after_white = some "1"` (the serialization after the white
half-move) but `position_fen = "0"` (the serialization before it), so
`position_fen` does NOT equal the board's FEN taken immediately after applying
the white half-move. -/
theorem spec_C2_counterexample :
    extract_moves_from_pgn toyE c2Input = .ok ([c2CexRec], ⟨none, none, none, none, none⟩) ∧
    c2CexRec.black = none ∧ c2CexRec.white.isSome = true ∧
    c2CexRec.position_after_white = some "1" ∧ ¬ c2CexRec.position_fen = "1" :=
  ⟨rfl, rfl, rfl, rfl, by decide⟩

/-- Witness for `spec_C2_position_fen` on the concrete one-half-move game. -/
theorem spec_C2_position_fen_witness :
    (pyBlank c2Input.raw = false ∧ c2Input.parsed = some c2Game ∧
      c2Game.startTurn = true ∧ c2Game.mainline.length = 2 * 0 + 1 ∧
      (∀ m ∈ c2Game.mainline, m.isNull = false) ∧
      sanOk toyE c2Game.startBoard c2Game.mainline = true) ∧
    (∃ mvs md r, extract_moves_from_pgn toyE c2Input = .ok (mvs, md) ∧
      mvs.getLast? = some r ∧ r.white.isSome = true ∧ r.black = none ∧
      r.position_fen = toyE.fen (pushAll toyE c2Game.startBoard c2Game.mainline.dropLast) ∧
      r.position_after_white = some (toyE.fen (pushAll toyE c2Game.startBoard c2Game.mainline))) :=
  ⟨⟨by decide, rfl, rfl, by decide, by decide, by decide⟩,
   (spec_C2_position_fen toyE c2Input).2 c2Game 0 (by decide) rfl rfl (by decide)
     (by decide) (by decide) toyE_san_ne⟩

/-! ### Claim C6 -/

/-- Loop invariant for C6 (requires non-null moves): appended records with a
black half-move have a white half-move, the in-progress record has a white
half-move whenever the tree turn is Black, and the in-progress record never
has a black half-move. -/
theorem runLoop_inv_pairing (E : ChessEngine) :
    ∀ (ms : List MoveTok) (s s' : LoopState E),
    (∀ m ∈ ms, m.isNull = false) →
    runLoop E s ms = .ok s' →
    (∀ rec ∈ s.moves, rec.black.isSome = true → rec.white.isSome = true) →
    (s.treeTurn = false → s.current.white.isSome = true) →
    s.current.black = none →
    (∀ rec ∈ s'.moves, rec.black.isSome = true → rec.white.isSome = true) ∧
      (s'.treeTurn = false → s'.current.white.isSome = true) ∧
      s'.current.black = none := by
  intro ms
  induction ms with
  | nil =>
    intro s s' _ h hm hw hc
    simp only [runLoop, Except.ok.injEq] at h
    subst h
    exact ⟨hm, hw, hc⟩
  | cons m rest ih =>
    intro s s' hnn h hm hw hc
    have hnl : m.isNull = false := hnn m (by simp)
    have hnn' : ∀ x ∈ rest, x.isNull = false := fun x hx => hnn x (by simp [hx])
    simp only [runLoop] at h
    cases hsn : E.san s.board m with
    | error e =>
      rw [stepNode_err E s m e hnl hsn] at h
      simp at h
    | ok sn =>
      cases htt : s.treeTurn with
      | true =>
        rw [stepNode_white_any E s m sn htt hnl hsn] at h
        simp only [] at h
        exact ih _ s' hnn' h hm (fun _ => rfl) hc
      | false =>
        rw [stepNode_black_any E s m sn htt hnl hsn] at h
        simp only [] at h
        refine ih _ s' hnn' h ?_ (by intro hfalse; cases hfalse) rfl
        intro rec hrec hb
        rcases List.mem_append.mp hrec with hin | hin
        · exact hm rec hin hb
        · have heq := List.mem_singleton.mp hin
          subst heq
          exact hw htt

/-- C6 (amended): for every accepted input whose game has White to move in its
initial position (the usual case; in particular every PGN without a set-up
header) and whose mainline has no null moves, every returned record with a
black half-move also has a white half-move.  The original claim extended this
to set-up positions, where it fails: with Black to move first, the first
record closes with a black half-move and a null white half-move (see the
counterexample). -/
theorem spec_C6_pairs_closed (E : ChessEngine) (inp : PgnInput E) (g : PyGame E)
    (mvs : List Move) (md : GameMetadata)
    (hp : inp.parsed = some g)
    (ht : g.startTurn = true)
    (hnn : ∀ m ∈ g.mainline, m.isNull = false)
    (h : extract_moves_from_pgn E inp = .ok (mvs, md)) :
    ∀ rec ∈ mvs, rec.black.isSome = true → rec.white.isSome = true := by
  unfold extract_moves_from_pgn at h
  cases hI : extractInner E inp with
  | error e => rw [hI] at h; simp at h
  | ok r =>
    rw [hI] at h
    simp only [Except.ok.injEq] at h
    subst h
    unfold extractInner at hI
    by_cases hb : pyBlank inp.raw = true
    · simp [hb] at hI
    · rw [if_neg hb, hp] at hI
      simp only [] at hI
      by_cases hq : g.mainline = []
      · simp [hq] at hI
      · rw [if_neg hq, ht] at hI
        cases hr : runLoop E ⟨g.startBoard, [], 1,
            initCurrent 1 (E.fen g.startBoard), true⟩ g.mainline with
        | error e => rw [hr] at hI; simp at hI
        | ok s =>
          rw [hr] at hI
          simp only [Except.ok.injEq, Prod.mk.injEq] at hI
          obtain ⟨hmvs, _⟩ := hI
          obtain ⟨hminv, _, hcinv⟩ := runLoop_inv_pairing E g.mainline _ s hnn hr
            (by intro rec hrec _; simp at hrec) (by intro hfalse; cases hfalse) rfl
          subst hmvs
          by_cases hcond : (pyTruthy s.current.white && !pyTruthy s.current.black) = true
          · rw [if_pos hcond]
            intro rec hrec hbl
            rcases List.mem_append.mp hrec with hin | hin
            · exact hminv rec hin hbl
            · have heq := List.mem_singleton.mp hin
              subst heq
              rw [hcinv] at hbl
              simp at hbl
          · rw [if_neg hcond]
            exact hminv

/-- A concrete game starting from a set-up position with Black to move, whose
single mainline move is Black's. -/
def c6Game : PyGame toyE := ⟨toyBoard 0, false, [tok "e7e5" 9], []⟩

/-- A concrete input wrapping `c6Game` (a PGN with SetUp/FEN headers giving
Black the move). -/
def c6Input : PgnInput toyE := ⟨"1... e5", some c6Game⟩

/-- The single record `extract_moves_from_pgn` returns for `c6Input`. -/
def c6CexRec : Move :=
  { number := 1, white := none, black := some "Se7e5",
    position_after_white := none, position_after_black := some "1",
    white_uci := none, black_uci := some "e7e5",
    full_move := "1. None Se7e5", position_fen := "1",
    captured_piece_white := none, captured_piece_black := some "p",
    is_check_white := false, is_check_black := false,
    is_checkmate_white := false, is_checkmate_black := false }

/-- Counterexample to C6 as stated: a game from a set-up position with Black
to move is accepted, and its first returned record has a non-null black
half-move with a null white half-move (the pair is not closed
white-then-black; note the `"None"` interpolated into `full_move`). -/
theorem spec_C6_counterexample :
    extract_moves_from_pgn toyE c6Input = .ok ([c6CexRec], ⟨none, none, none, none, none⟩) ∧
    c6CexRec.black.isSome = true ∧ c6CexRec.white = none :=
  ⟨rfl, rfl, rfl⟩

/-- A concrete one-pair game with White to move for exercising
`spec_C6_pairs_closed`. -/
def c6wGame : PyGame toyE := ⟨toyBoard 0, true, [tok "g1f3" 2, tok "b8c6" 9], []⟩

/-- A concrete input wrapping `c6wGame`. -/
def c6wInput : PgnInput toyE := ⟨"1. Nf3 Nc6", some c6wGame⟩

/-- The output records of `extract_moves_from_pgn` on `c6wInput`. -/
def c6wMvs : List Move :=
  [{ number := 1, white := some "Sg1f3", black := some "Sb8c6",
     position_after_white := some "1", position_after_black := some "2",
     white_uci := some "g1f3", black_uci := some "b8c6",
     full_move := "1. Sg1f3 Sb8c6", position_fen := "2",
     captured_piece_white := none, captured_piece_black := some "p",
     is_check_white := false, is_check_black := false,
     is_checkmate_white := false, is_checkmate_black := false }]

/-- Witness for `spec_C6_pairs_closed` on the concrete one-pair game. -/
theorem spec_C6_pairs_closed_witness :
    (c6wInput.parsed = some c6wGame ∧ c6wGame.startTurn = true ∧
      (∀ m ∈ c6wGame.mainline, m.isNull = false) ∧
      extract_moves_from_pgn toyE c6wInput = .ok (c6wMvs, ⟨none, none, none, none, none⟩)) ∧
    (∀ rec ∈ c6wMvs, rec.black.isSome = true → rec.white.isSome = true) :=
  ⟨⟨rfl, rfl, by decide, rfl⟩,
   spec_C6_pairs_closed toyE c6wInput c6wGame c6wMvs ⟨none, none, none, none, none⟩
     rfl rfl (by decide) rfl⟩

/-! ### Claim C7 -/

/-- The k-th record of `expectedPairs` is the `pairRecord` of the (2k)-th and
(2k+1)-th moves, played from the board reached by the first 2k moves, with
move number `n + k`. -/
theorem expectedPairs_get (E : ChessEngine) :
    ∀ (k : Nat) (ms : List MoveTok) (b : E.Board) (n : Nat) (rec : Move) (m1 m2 : MoveTok),
    (expectedPairs E b n ms)[k]? = some rec →
    ms[2 * k]? = some m1 → ms[2 * k + 1]? = some m2 →
    rec = pairRecord E (pushAll E b (ms.take (2 * k))) (n + k) m1 m2 := by
  intro k
  induction k with
  | zero =>
    intro ms b n rec m1 m2 hrec h1 h2
    match ms with
    | [] => simp at h1
    | [m] => simp at h2
    | a :: c :: rest =>
      simp only [Nat.mul_zero, List.getElem?_cons_zero] at h1
      simp only [Nat.mul_zero, Nat.zero_add, List.getElem?_cons_succ,
        List.getElem?_cons_zero] at h2
      cases h1
      cases h2
      simp only [expectedPairs, List.getElem?_cons_zero] at hrec
      cases hrec
      simp [pushAll]
  | succ k ih =>
    intro ms b n rec m1 m2 hrec h1 h2
    match ms with
    | [] => simp at h1
    | [m] =>
      rw [show 2 * (k + 1) = 2 * k + 1 + 1 from by omega] at h1
      simp at h1
    | a :: c :: rest =>
      rw [show 2 * (k + 1) = 2 * k + 1 + 1 from by omega] at h1 h2
      simp only [List.getElem?_cons_succ] at h1 h2
      simp only [expectedPairs, List.getElem?_cons_succ] at hrec
      have := ih rest (E.push (E.push b a) c) (n + 1) rec m1 m2 hrec h1 h2
      rw [this]
      rw [show 2 * (k + 1) = 2 * k + 1 + 1 from by omega]
      simp only [List.take_succ_cons, pushAll, List.foldl_cons]
      rw [show n + 1 + k = n + (k + 1) from by omega]

/-- C7: for every replayed half-move, the recorded captured-piece field for
the moving side equals `board.piece_at(move.to_square)` evaluated on the board
immediately before the half-move is applied; in particular it is non-null if
and only if the destination square is occupied at that moment (so an en
passant capture, whose destination square is empty, records no captured
piece, and a non-capturing move records null). -/
theorem spec_C7_captures (E : ChessEngine) (inp : PgnInput E) (g : PyGame E) (N : Nat)
    (hraw : pyBlank inp.raw = false)
    (hp : inp.parsed = some g)
    (ht : g.startTurn = true)
    (hN : 0 < N)
    (hlen : g.mainline.length = 2 * N)
    (hnn : ∀ m ∈ g.mainline, m.isNull = false)
    (hsan : sanOk E g.startBoard g.mainline = true) :
    ∃ mvs md, extract_moves_from_pgn E inp = .ok (mvs, md) ∧
      ∀ (k : Nat) (rec : Move) (m1 m2 : MoveTok),
        mvs[k]? = some rec →
        g.mainline[2 * k]? = some m1 → g.mainline[2 * k + 1]? = some m2 →
        rec.captured_piece_white
            = E.piece_at (pushAll E g.startBoard (g.mainline.take (2 * k))) m1.to_square ∧
        rec.captured_piece_white.isSome
            = (E.piece_at (pushAll E g.startBoard (g.mainline.take (2 * k))) m1.to_square).isSome ∧
        rec.captured_piece_black
            = E.piece_at (E.push (pushAll E g.startBoard (g.mainline.take (2 * k))) m1) m2.to_square ∧
        rec.captured_piece_black.isSome
            = (E.piece_at (E.push (pushAll E g.startBoard (g.mainline.take (2 * k))) m1) m2.to_square).isSome := by
  refine ⟨_, _, extract_even E inp g N hraw hp ht hN hlen hnn hsan, ?_⟩
  intro k rec m1 m2 hrec h1 h2
  have := expectedPairs_get E k g.mainline g.startBoard 1 rec m1 m2 hrec h1 h2
  subst this
  exact ⟨rfl, rfl, rfl, rfl⟩

/-- A concrete one-pair game in which White's move lands on the occupied
square. -/
def c7Game : PyGame toyE := ⟨toyBoard 0, true, [tok "b1c3" 9, tok "e7e5" 4], []⟩

/-- A concrete input wrapping `c7Game`. -/
def c7Input : PgnInput toyE := ⟨"1. Nxc3 e5", some c7Game⟩

/-- Witness for `spec_C7_captures` on the concrete capturing game. -/
theorem spec_C7_captures_witness :
    (pyBlank c7Input.raw = false ∧ c7Input.parsed = some c7Game ∧
      c7Game.startTurn = true ∧ 0 < 1 ∧ c7Game.mainline.length = 2 * 1 ∧
      (∀ m ∈ c7Game.mainline, m.isNull = false) ∧
      sanOk toyE c7Game.startBoard c7Game.mainline = true) ∧
    (∃ mvs md, extract_moves_from_pgn toyE c7Input = .ok (mvs, md) ∧
      ∀ (k : Nat) (rec : Move) (m1 m2 : MoveTok),
        mvs[k]? = some rec →
        c7Game.mainline[2 * k]? = some m1 → c7Game.mainline[2 * k + 1]? = some m2 →
        rec.captured_piece_white
            = toyE.piece_at (pushAll toyE c7Game.startBoard (c7Game.mainline.take (2 * k))) m1.to_square ∧
        rec.captured_piece_white.isSome
            = (toyE.piece_at (pushAll toyE c7Game.startBoard (c7Game.mainline.take (2 * k))) m1.to_square).isSome ∧
        rec.captured_piece_black
            = toyE.piece_at (toyE.push (pushAll toyE c7Game.startBoard (c7Game.mainline.take (2 * k))) m1) m2.to_square ∧
        rec.captured_piece_black.isSome
            = (toyE.piece_at (toyE.push (pushAll toyE c7Game.startBoard (c7Game.mainline.take (2 * k))) m1) m2.to_square).isSome) :=
  ⟨⟨by decide, rfl, rfl, by decide, by decide, by decide, by decide⟩,
   spec_C7_captures toyE c7Input c7Game 1 (by decide) rfl rfl (by decide) (by decide)
     (by decide) (by decide)⟩

/-! ### Claim C3 -/

/-- A wrapped error detail is never the empty string. -/
theorem wrapDetail_ne (s : String) : ("Error extracting moves from PGN: " ++ s) ≠ "" := by
  intro h
  have := congrArg String.data h
  simp [String.data_append] at this

/-- If some half-move's SAN fails against the board as replayed, the loop
aborts with a 400 "Error processing move" exception. -/
theorem runLoop_sanOk_false (E : ChessEngine) :
    ∀ (ms : List MoveTok) (s : LoopState E),
    sanOk E s.board ms = false →
    ∃ em, runLoop E s ms = .error ⟨400, "Error processing move: " ++ em⟩ := by
  intro ms
  induction ms with
  | nil => intro s h; simp [sanOk] at h
  | cons m rest ih =>
    intro s h
    simp only [runLoop]
    cases hnl : m.isNull with
    | true =>
      rw [stepNode_null E s m hnl]
      simp only []
      refine ih _ ?_
      simpa [sanOk, hnl] using h
    | false =>
      cases hsn : E.san s.board m with
      | error e =>
        rw [stepNode_err E s m e hnl hsn]
        exact ⟨e, rfl⟩
      | ok sn =>
        have h' : sanOk E (E.push s.board m) rest = false := by
          simpa [sanOk, hnl, hsn] using h
        cases htt : s.treeTurn with
        | true =>
          rw [stepNode_white_any E s m sn htt hnl hsn]
          simp only []
          exact ih _ h'
        | false =>
          rw [stepNode_black_any E s m sn htt hnl hsn]
          simp only []
          exact ih _ h'

/-- The four bad-input conditions of C3: empty/whitespace-only input, input
from which no game can be parsed, input with zero mainline moves, and input
with a half-move that cannot be applied to the board as replayed. -/
def badPgnInput (E : ChessEngine) (inp : PgnInput E) : Prop :=
  pyBlank inp.raw = true ∨
  inp.parsed = none ∨
  (∃ g, inp.parsed = some g ∧ g.mainline = []) ∨
  (∃ g, inp.parsed = some g ∧ sanOk E g.startBoard g.mainline = false)

/-- C3: on each of the four bad-input conditions `extract_moves_from_pgn`
raises an `HTTPException` with status 400 and a non-empty descriptive message;
being an exception, it carries no `Move` sequence at all — in particular no
half-built one. -/
theorem spec_C3_bad_input (E : ChessEngine) (inp : PgnInput E)
    (h : badPgnInput E inp) :
    ∃ e, extract_moves_from_pgn E inp = .error e ∧ e.status = 400 ∧ ¬ e.detail = "" := by
  unfold extract_moves_from_pgn extractInner
  by_cases hb : pyBlank inp.raw = true
  · rw [if_pos hb]
    exact ⟨_, rfl, rfl, wrapDetail_ne _⟩
  · rw [if_neg hb]
    rcases h with hb' | hpn | ⟨g, hp, hq⟩ | ⟨g, hp, hsan⟩
    · exact absurd hb' hb
    · rw [hpn]
      exact ⟨_, rfl, rfl, wrapDetail_ne _⟩
    · rw [hp]
      simp only []
      rw [if_pos hq]
      exact ⟨_, rfl, rfl, wrapDetail_ne _⟩
    · rw [hp]
      simp only []
      by_cases hq : g.mainline = []
      · rw [if_pos hq]
        exact ⟨_, rfl, rfl, wrapDetail_ne _⟩
      · rw [if_neg hq]
        obtain ⟨em, hrun⟩ := runLoop_sanOk_false E g.mainline
          ⟨g.startBoard, [], 1, initCurrent 1 (E.fen g.startBoard), g.startTurn⟩ hsan
        rw [hrun]
        exact ⟨_, rfl, rfl, wrapDetail_ne _⟩

/-- Witness for `spec_C3_bad_input` on the empty input. -/
theorem spec_C3_bad_input_witness :
    badPgnInput toyE ⟨"", none⟩ ∧
    (∃ e, extract_moves_from_pgn toyE ⟨"", none⟩ = .error e ∧
      e.status = 400 ∧ ¬ e.detail = "") :=
  ⟨Or.inl (by decide), spec_C3_bad_input toyE ⟨"", none⟩ (Or.inl (by decide))⟩

/-! ### Claim C4 -/

/-- C4 fails on the code: a bad-PGN request to `POST /analyze` is answered
with a SERVER-error status.  The handler's blanket `except Exception` catches
the status-400 `HTTPException` raised by `extract_moves_from_pgn` and
re-raises `HTTPException(status_code=500, detail=str(e))`, so the empty-PGN
request below — which the claim and the spec say must get a 400-class
response — gets status 500 (the AI step is never reached; its outcome is
irrelevant, here instantiated as a success). -/
theorem spec_C4_bad_pgn_gets_500 :
    analyze_game toyE ⟨"", none⟩ (GptOutcome.success "ok" []) =
      .error ⟨500, "400: Error extracting moves from PGN: 400: Empty PGN content"⟩ ∧
    ¬ (500 : Nat) < 500 ∧ (400 : Nat) < 500 :=
  ⟨rfl, by decide, by decide⟩

/-! ### Claim C9 -/

/-- C9: the health check returns a `HealthCheck` value for every behaviour of
the external probe — success, a response without choices, or a raised
exception — and whenever the probe does not succeed the result has status
`"unhealthy"` and `openai_connection = False`.  (`check_openai_connection`
converts any exception into `False`; every path of the handler returns.) -/
theorem spec_C9_health_never_fails (p : ProbeOutcome) :
    ∃ h : HealthCheck, check_health p = h ∧
      (¬ probeCall p = .ok true →
        h.status = "unhealthy" ∧ h.openai_connection = false) := by
  cases p with
  | responds b =>
    cases b with
    | true => exact ⟨_, rfl, fun hc => absurd rfl hc⟩
    | false => exact ⟨_, rfl, fun _ => ⟨rfl, rfl⟩⟩
  | raised m => exact ⟨_, rfl, fun _ => ⟨rfl, rfl⟩⟩

/-- Witness for `spec_C9_health_never_fails` on a probe that raises. -/
theorem spec_C9_health_never_fails_witness :
    ¬ probeCall (ProbeOutcome.raised "connection refused") = .ok true ∧
    (∃ h : HealthCheck, check_health (ProbeOutcome.raised "connection refused") = h ∧
      (¬ probeCall (ProbeOutcome.raised "connection refused") = .ok true →
        h.status = "unhealthy" ∧ h.openai_connection = false)) :=
  ⟨fun h => Except.noConfusion h,
   spec_C9_health_never_fails (ProbeOutcome.raised "connection refused")⟩

/-! ### Claim C8 -/

/-- C8 (amended): once the first AI call of `POST /coach` has succeeded the
operation never fails — for every outcome of the structuring step, including
exceptions while structuring or while building the structured response
object, it returns a well-formed `CoachingResponse`; and whenever the
structuring/validation step does not produce a valid object, the result is
the endpoint's hard-coded fallback, whose response text is the raw coaching
text and whose suggestions list is non-empty.  The original claim's
unconditional "suggestions list is non-empty" fails when the structuring call
happens to return a dictionary that validates with an empty `suggestions`
list (see the counterexample). -/
theorem spec_C8_coach_never_fails (content : String) (so : StructureOutcome) :
    ∃ r, get_chess_coaching (.aiSuccess content so) = .ok r ∧
      (validateCoachingResponse (structure_coaching_response content so) = none →
        r = coachFallback content ∧ r.response = content ∧ ¬ r.suggestions = []) := by
  have hred : get_chess_coaching (.aiSuccess content so) =
      match validateCoachingResponse (structure_coaching_response content so) with
      | some r => .ok r
      | none => .ok (coachFallback content) := rfl
  cases hv : validateCoachingResponse (structure_coaching_response content so) with
  | some r =>
    exact ⟨r, by rw [hred, hv], fun hn => absurd hn (fun h => Option.noConfusion h)⟩
  | none =>
    exact ⟨coachFallback content, by rw [hred, hv],
      fun _ => ⟨rfl, rfl, by simp [coachFallback]⟩⟩

/-- A dictionary the structuring step can return: valid JSON with the
required `text_response` and `suggestions` keys, an (empty) list of
suggestions, and an extra `response` key. -/
def c8Dict : List (String × JVal) :=
  [("response", .jstr "hi"), ("text_response", .jstr "t"), ("suggestions", .jlist [])]

/-- Counterexample to C8 as stated: when the second AI call returns `c8Dict`,
the `/coach` operation succeeds but returns a `CoachingResponse` whose
`suggestions` list is EMPTY — the claim's unconditional "suggestions list is
non-empty" is false. -/
theorem spec_C8_counterexample :
    get_chess_coaching (.aiSuccess "raw coaching text" (.parsed c8Dict)) =
      .ok { response := "hi", suggestions := [], next_steps := none, evaluation := none } ∧
    ({ response := "hi", suggestions := [], next_steps := none,
       evaluation := none } : CoachingResponse).suggestions = [] :=
  ⟨rfl, rfl⟩

/-- Witness for `spec_C8_coach_never_fails` on a structuring step whose AI
output is not valid JSON. -/
theorem spec_C8_coach_never_fails_witness :
    validateCoachingResponse (structure_coaching_response "the advice" .badJson) = none ∧
    (∃ r, get_chess_coaching (.aiSuccess "the advice" .badJson) = .ok r ∧
      r = coachFallback "the advice" ∧ r.response = "the advice" ∧
      ¬ r.suggestions = []) := by
  refine ⟨rfl, ?_⟩
  obtain ⟨r, hr, himp⟩ := spec_C8_coach_never_fails "the advice" .badJson
  obtain ⟨h1, h2, h3⟩ := himp rfl
  exact ⟨r, hr, h1, h2, h3⟩

/-! ### Claim C10 -/

/-- Re-binding one key of a dictionary leaves lookups of other keys
unchanged. -/
theorem dictGet_setKey_ne (k k' : String) (v : JVal) (hkk : ¬ k' = k) :
    ∀ d : List (String × JVal), dictGet (setKey d k v) k' = dictGet d k' := by
  intro d
  induction d with
  | nil =>
    have hkf : (k == k') = false := beq_eq_false_iff_ne.mpr (Ne.symm hkk)
    simp [setKey, dictGet, List.find?, hkf]
  | cons a rest ih =>
    obtain ⟨ka, va⟩ := a
    by_cases hak : (ka == k) = true
    · have hake : ka = k := beq_iff_eq.mp hak
      have hkf : (ka == k') = false := by
        rw [hake]
        exact beq_eq_false_iff_ne.mpr (Ne.symm hkk)
      simp [setKey, hak, dictGet, List.find?, hkf]
    · have hakf : (ka == k) = false := by
        cases h : ka == k
        · rfl
        · exact absurd h hak
      by_cases hka' : (ka == k') = true
      · simp [setKey, hakf, dictGet, List.find?, hka']
      · have hkaf : (ka == k') = false := by
          cases h : ka == k'
          · rfl
          · exact absurd h hka'
        simpa [setKey, hakf, dictGet, List.find?, hkaf] using ih

/-- Wrapping one key's value leaves lookups of other keys unchanged. -/
theorem dictGet_coerceListField_ne (d : List (String × JVal)) (key k' : String)
    (h : ¬ k' = key) : dictGet (coerceListField d key) k' = dictGet d k' := by
  unfold coerceListField
  cases hk : dictGet d key with
  | none => rfl
  | some v =>
    cases v with
    | jnull => exact dictGet_setKey_ne key k' _ h d
    | jbool b => exact dictGet_setKey_ne key k' _ h d
    | jnum n => exact dictGet_setKey_ne key k' _ h d
    | jstr s => exact dictGet_setKey_ne key k' _ h d
    | jlist xs => rfl
    | jobj fs => exact dictGet_setKey_ne key k' _ h d

/-- Every dictionary `structure_coaching_response` can return carries its main
text under the key `text_response` — the parsed-and-validated dictionary by
the required-fields check (the key-wrapping massages touch only `suggestions`
and `next_steps`), and both fallback dictionaries by construction. -/
theorem structure_keeps_text_response (content : String) (so : StructureOutcome) :
    (dictGet (structure_coaching_response content so) "text_response").isSome = true := by
  cases so with
  | raised msg => rfl
  | badJson => rfl
  | parsedNonDict => rfl
  | parsed d =>
    show (dictGet
        (if (dictGet d "text_response").isSome && (dictGet d "suggestions").isSome then
          coerceListField (coerceListField d "suggestions") "next_steps"
        else structureFallbackOuter content) "text_response").isSome = true
    by_cases hc : ((dictGet d "text_response").isSome && (dictGet d "suggestions").isSome) = true
    · rw [if_pos hc]
      rw [dictGet_coerceListField_ne _ _ _ (by decide),
        dictGet_coerceListField_ne _ _ _ (by decide)]
      exact ((Bool.and_eq_true _ _).mp hc).1
    · rw [if_neg hc]
      rfl

/-- C10: every dictionary returned by `structure_coaching_response` keys its
main text under `text_response` (both fallback dictionaries included); and
whenever the returned dictionary lacks a key named `response`, constructing
`CoachingResponse(**structured_content)` in the success branch of `/coach`
raises a validation error (`response` is a required field), so the operation
returns the endpoint's hard-coded fallback object — the structured result of
the second AI call is not surfaced to the caller. -/
theorem spec_C10_structured_never_surfaced (content : String) (so : StructureOutcome) :
    (dictGet (structure_coaching_response content so) "text_response").isSome = true ∧
    (dictGet (structure_coaching_response content so) "response" = none →
      get_chess_coaching (.aiSuccess content so) = .ok (coachFallback content)) := by
  refine ⟨structure_keeps_text_response content so, fun hr => ?_⟩
  have hv : validateCoachingResponse (structure_coaching_response content so) = none := by
    unfold validateCoachingResponse
    rw [hr]
  have hred : get_chess_coaching (.aiSuccess content so) =
      match validateCoachingResponse (structure_coaching_response content so) with
      | some r => .ok r
      | none => .ok (coachFallback content) := rfl
  rw [hred, hv]

/-- Witness for `spec_C10_structured_never_surfaced` on a structuring step
whose AI output is not valid JSON (the inner fallback dictionary, which keys
its text under `text_response` and has no `response` key). -/
theorem spec_C10_structured_never_surfaced_witness :
    dictGet (structure_coaching_response "advice text" .badJson) "response" = none ∧
    (dictGet (structure_coaching_response "advice text" .badJson) "text_response").isSome = true ∧
    get_chess_coaching (.aiSuccess "advice text" .badJson) = .ok (coachFallback "advice text") :=
  ⟨rfl, (spec_C10_structured_never_surfaced "advice text" .badJson).1,
   (spec_C10_structured_never_surfaced "advice text" .badJson).2 rfl⟩
